import Mathlib

/-!
# Verification of the CSAT survey token store (`main.py`)

A shallow embedding of the survey token store, its persistence layer and
the webhook forwarder from `main.py`, together with theorems settling the
specification claims.  Python dicts are modelled as association lists with
the dict operations spelled out, `datetime` values as a record of calendar
fields, the surveys file as a `FileState` (missing / undecodable / a
decoded JSON object), and the retrying webhook sender as a function of the
per-attempt outcomes.
-/

set_option maxRecDepth 4000

namespace CSAT

/-! ## Python dict model -/

/-- `d.get(k)` / `k in d`: find the value stored under key `k`. -/
def lookupD {α : Type} (k : String) : List (String × α) → Option α
  | [] => none
  | (k₁, v) :: rest => if k₁ = k then some v else lookupD k rest

/-- `d[k] = v`: replace the entry in place if the key is present, else append. -/
def dictInsert {α : Type} (k : String) (v : α) : List (String × α) → List (String × α)
  | [] => [(k, v)]
  | (k₁, v₁) :: rest => if k₁ = k then (k, v) :: rest else (k₁, v₁) :: dictInsert k v rest

/-- `del d[k]`: remove the entry stored under key `k`. -/
def dictErase {α : Type} (k : String) (m : List (String × α)) : List (String × α) :=
  m.filter (fun e => decide (e.1 ≠ k))

/-! ## `datetime` model -/

/-- A Python `datetime.datetime` value (naive, microsecond resolution). -/
structure DateTime where
  year : Nat
  month : Nat
  day : Nat
  hour : Nat
  minute : Nat
  second : Nat
  microsecond : Nat
deriving DecidableEq

def isLeap (y : Nat) : Bool := (y % 4 == 0 && y % 100 != 0) || y % 400 == 0

def daysInMonth (y m : Nat) : Nat :=
  if m == 2 then (if isLeap y then 29 else 28)
  else if m == 4 || m == 6 || m == 9 || m == 11 then 30
  else 31

def daysBeforeMonth (y m : Nat) : Nat :=
  let base :=
    if m ≤ 1 then 0 else if m = 2 then 31 else if m = 3 then 59 else if m = 4 then 90
    else if m = 5 then 120 else if m = 6 then 151 else if m = 7 then 181 else if m = 8 then 212
    else if m = 9 then 243 else if m = 10 then 273 else if m = 11 then 304 else 334
  if 3 ≤ m then (if isLeap y then base + 1 else base) else base

def daysBeforeYear (y : Nat) : Nat :=
  365 * (y - 1) + (y - 1) / 4 - (y - 1) / 100 + (y - 1) / 400

/-- Microseconds since the epoch of the proleptic Gregorian calendar;
`a - b` on two datetimes is `toEpochMicros a - toEpochMicros b` microseconds. -/
def toEpochMicros (d : DateTime) : Nat :=
  ((((daysBeforeYear d.year + daysBeforeMonth d.year d.month + (d.day - 1)) * 24
      + d.hour) * 60 + d.minute) * 60 + d.second) * 1000000 + d.microsecond

/-- `timedelta(hours=h)` in microseconds. -/
def hoursMicros (h : Nat) : Nat := h * 3600000000

/-- `now - created_at > timedelta(hours=hoursW)`. -/
def expiredB (now created : DateTime) (hoursW : Nat) : Bool :=
  decide ((toEpochMicros now : Int) - (toEpochMicros created : Int) > (hoursMicros hoursW : Int))

/-! ## `datetime.isoformat` / `datetime.fromisoformat` -/

def digitChar (n : Nat) : Char := Char.ofNat (48 + n % 10)

def pad2 (n : Nat) : List Char := [digitChar (n / 10), digitChar n]

def pad4 (n : Nat) : List Char :=
  [digitChar (n / 1000), digitChar (n / 100), digitChar (n / 10), digitChar n]

def pad6 (n : Nat) : List Char :=
  [digitChar (n / 100000), digitChar (n / 10000), digitChar (n / 1000),
   digitChar (n / 100), digitChar (n / 10), digitChar n]

/-- `d.isoformat()`: `YYYY-MM-DDTHH:MM:SS` with `.ffffff` appended exactly
when the microsecond field is nonzero. -/
def isoformat (d : DateTime) : List Char :=
  pad4 d.year ++ ['-'] ++ pad2 d.month ++ ['-'] ++ pad2 d.day ++ ['T'] ++ pad2 d.hour
    ++ [':'] ++ pad2 d.minute ++ [':'] ++ pad2 d.second
    ++ (if d.microsecond = 0 then [] else '.' :: pad6 d.microsecond)

def charVal (c : Char) : Nat := c.toNat - 48

def isDigitCh (c : Char) : Bool := decide (48 ≤ c.toNat) && decide (c.toNat ≤ 57)

def val2 (a b : Char) : Nat := charVal a * 10 + charVal b

def val4 (a b c d : Char) : Nat :=
  ((charVal a * 10 + charVal b) * 10 + charVal c) * 10 + charVal d

def val6 (a b c d e f : Char) : Nat :=
  ((((charVal a * 10 + charVal b) * 10 + charVal c) * 10 + charVal d) * 10 + charVal e) * 10
    + charVal f

/-- Fractional-second suffix of an ISO string: empty, or `.` plus six digits. -/
def parseMicro : List Char → Option Nat
  | [] => some 0
  | p :: u1 :: u2 :: u3 :: u4 :: u5 :: u6 :: [] =>
    if p == '.' && isDigitCh u1 && isDigitCh u2 && isDigitCh u3 && isDigitCh u4
        && isDigitCh u5 && isDigitCh u6
    then some (val6 u1 u2 u3 u4 u5 u6) else none
  | _ => none

/-- Field ranges enforced by the `datetime` constructor. -/
def validDTb (d : DateTime) : Bool :=
  decide (1 ≤ d.year) && decide (d.year ≤ 9999) && decide (1 ≤ d.month)
    && decide (d.month ≤ 12) && decide (1 ≤ d.day) && decide (d.day ≤ daysInMonth d.year d.month)
    && decide (d.hour ≤ 23) && decide (d.minute ≤ 59) && decide (d.second ≤ 59)
    && decide (d.microsecond ≤ 999999)

/-- `datetime.fromisoformat` on the shapes `isoformat` emits; raises
(`none`) on anything malformed or out of range. -/
def fromisoformat (s : List Char) : Option DateTime :=
  match s with
  | y1 :: y2 :: y3 :: y4 :: c1 :: mo1 :: mo2 :: c2 :: d1 :: d2 :: c3 :: h1 :: h2 :: c4
      :: mi1 :: mi2 :: c5 :: se1 :: se2 :: rest =>
    if c1 == '-' && c2 == '-' && c3 == 'T' && c4 == ':' && c5 == ':'
        && isDigitCh y1 && isDigitCh y2 && isDigitCh y3 && isDigitCh y4
        && isDigitCh mo1 && isDigitCh mo2 && isDigitCh d1 && isDigitCh d2
        && isDigitCh h1 && isDigitCh h2 && isDigitCh mi1 && isDigitCh mi2
        && isDigitCh se1 && isDigitCh se2 then
      match parseMicro rest with
      | none => none
      | some us =>
        let dt : DateTime :=
          ⟨val4 y1 y2 y3 y4, val2 mo1 mo2, val2 d1 d2, val2 h1 h2, val2 mi1 mi2,
            val2 se1 se2, us⟩
        if validDTb dt then some dt else none
    else none
  | _ => none

/-! ## Records, the surveys file, load and save -/

/-- One entry of `pending_surveys`. -/
structure SurveyRecord where
  issue_key : String
  is_used : Bool
  language : String
  created_at : DateTime
deriving DecidableEq

/-- One entry of the JSON document in `surveys.json`: same fields with
`created_at` as an ISO text. -/
structure SerRecord where
  issue_key : String
  is_used : Bool
  language : String
  created_at : List Char
deriving DecidableEq

abbrev Dict := List (String × SurveyRecord)

abbrev SerDict := List (String × SerRecord)

/-- The surveys file: absent, present but not JSON-decodable, or a decoded
JSON object. -/
inductive FileState
  | missing
  | corrupt
  | good (d : SerDict)
deriving DecidableEq

def serRecord (r : SurveyRecord) : SerRecord :=
  ⟨r.issue_key, r.is_used, r.language, isoformat r.created_at⟩

/-- `save_surveys`: serialize every record, `created_at` via `isoformat`,
and atomically replace the file with the result. -/
def save_surveys (m : Dict) : SerDict := m.map (fun e => (e.1, serRecord e.2))

/-- Deserialize one JSON record; `fromisoformat` may raise (`none`). -/
def parseRecord (sr : SerRecord) : Option SurveyRecord :=
  match fromisoformat sr.created_at with
  | none => none
  | some dt => some ⟨sr.issue_key, sr.is_used, sr.language, dt⟩

/-- Parse every record of the decoded document, failing if any record fails. -/
def parseAll : SerDict → Option (List (String × SurveyRecord))
  | [] => some []
  | (k, sr) :: rest =>
    match parseRecord sr with
    | none => none
    | some r =>
      match parseAll rest with
      | none => none
      | some tail => some ((k, r) :: tail)

/-- `load_surveys`: if the file exists, decode it and insert every record
into `pending_surveys`; on any failure log and set `pending_surveys = {}`;
if the file is missing keep the prior state. -/
def load_surveys (prior : Dict) : FileState → Dict
  | .missing => prior
  | .corrupt => []
  | .good d =>
    match parseAll d with
    | none => []
    | some entries => entries.foldl (fun m e => dictInsert e.1 e.2 m) prior

/-! ## Store operations -/

/-- The common prologue of `get_survey` and `submit_survey`:
`survey = pending_surveys.get(token)`, and if that misses and the file
exists, decode the file and, when the token is there and its record
parses, merge that one record into memory. Returns the record found (if
any) and the possibly-updated memory. -/
def reloadToken (mem : Dict) (file : FileState) (token : String) :
    Option SurveyRecord × Dict :=
  match lookupD token mem with
  | some r => (some r, mem)
  | none =>
    match file with
    | .missing => (none, mem)
    | .corrupt => (none, mem)
    | .good d =>
      match lookupD token d with
      | none => (none, mem)
      | some sr =>
        match parseRecord sr with
        | none => (none, mem)
        | some r => (some r, dictInsert token r mem)

/-- The record `reloadToken` finds, on its own: the in-memory record if
present, else the parsed on-disk record for just this token. -/
def reloadFind (mem : Dict) (file : FileState) (token : String) : Option SurveyRecord :=
  match lookupD token mem with
  | some r => some r
  | none =>
    match file with
    | .missing => none
    | .corrupt => none
    | .good d =>
      match lookupD token d with
      | none => none
      | some sr => parseRecord sr

/-- The data `get_survey` copies out for a found survey. -/
structure GetView where
  issue_key : String
  language : String
deriving DecidableEq

/-- `GET /survey/{token}`: look the token up (memory first, then the
file), drop it if `now - created_at > timedelta(hours=hoursW)`, and return
the copied view (`none` renders the 403 page). Returns the view and the
memory after the possible merge. -/
def get_survey (mem : Dict) (file : FileState) (token : String) (now : DateTime)
    (hoursW : Nat) : Option GetView × Dict :=
  match reloadToken mem file token with
  | (none, mem₁) => (none, mem₁)
  | (some r, mem₁) =>
    if expiredB now r.created_at hoursW then (none, mem₁)
    else (some ⟨r.issue_key, r.language⟩, mem₁)

/-- Outcome of `POST /survey/{token}/submit`: success carrying the issue
key handed to the forwarder, or one of the three rejections. -/
inductive SubmitResult
  | ok (issue_key : String)
  | invalidLink
  | badScore
  | commentRequired
deriving DecidableEq

/-- Python `str.isspace`, the set of characters `str.strip()` removes:
tab through carriage return (code points 9..13), the file/group/record/unit
separators 28..31, the space 32, next line 133, no-break space 160, Ogham
space mark 5760, the Unicode spaces 8192..8202, line separator 8232,
paragraph separator 8233, narrow no-break space 8239, medium mathematical
space 8287 and ideographic space 12288. -/
def isSpaceCh (c : Char) : Bool :=
  (decide (9 ≤ c.toNat) && decide (c.toNat ≤ 13))
    || (decide (28 ≤ c.toNat) && decide (c.toNat ≤ 32))
    || c.toNat == 133 || c.toNat == 160 || c.toNat == 5760
    || (decide (8192 ≤ c.toNat) && decide (c.toNat ≤ 8202))
    || c.toNat == 8232 || c.toNat == 8233 || c.toNat == 8239 || c.toNat == 8287
    || c.toNat == 12288

/-- `comment.strip()`. -/
def pyStrip (s : List Char) : List Char :=
  ((s.dropWhile isSpaceCh).reverse.dropWhile isSpaceCh).reverse

/-- `submit_survey`: look the token up (memory first, then file); 403 if
absent; 400 if the score is not one of 1..5; 400 if the score is ≤ 4 and
the stripped comment is empty; otherwise delete the record and save.
`saveOk = false` models `save_surveys` hitting a disk error (which it
swallows). Returns the result, the memory and the file afterwards. -/
def submit_survey (mem : Dict) (file : FileState) (token : String) (score : Int)
    (comment : List Char) (saveOk : Bool) : SubmitResult × Dict × FileState :=
  match reloadToken mem file token with
  | (none, mem₁) => (.invalidLink, mem₁, file)
  | (some r, mem₁) =>
    if ¬ (score = 1 ∨ score = 2 ∨ score = 3 ∨ score = 4 ∨ score = 5) then
      (.badScore, mem₁, file)
    else if score ≤ 4 ∧ pyStrip comment = [] then
      (.commentRequired, mem₁, file)
    else
      let mem₂ := dictErase token mem₁
      let file₂ := if saveOk then FileState.good (save_surveys mem₂) else file
      (.ok r.issue_key, mem₂, file₂)

/-- `now - created_at > timedelta(hours=hoursW) or is_used`: the records
`cleanup_expired_surveys` deletes. -/
def shouldRemove (now : DateTime) (hoursW : Nat) (r : SurveyRecord) : Bool :=
  expiredB now r.created_at hoursW || r.is_used

/-- `cleanup_expired_surveys`: collect the tokens of expired-or-used
records, delete them, and call `save_surveys` only when the collected list
is nonempty (`saveOk` again models the swallowed disk error). -/
def cleanup_expired_surveys (mem : Dict) (file : FileState) (now : DateTime)
    (hoursW : Nat) (saveOk : Bool) : Dict × FileState :=
  let expiredTokens := (mem.filter (fun e => shouldRemove now hoursW e.2)).map Prod.fst
  let mem₁ := expiredTokens.foldl (fun m t => dictErase t m) mem
  if expiredTokens.isEmpty then (mem₁, file)
  else (mem₁, if saveOk then FileState.good (save_surveys mem₁) else file)

/-- `POST /survey/create`: run a cleanup pass, insert a fresh record with
`is_used = false` and `created_at = now` under the generated `token`, save,
and return the link. -/
def create_survey (mem : Dict) (file : FileState) (issue_key language token : String)
    (now : DateTime) (hoursW : Nat) (saveCleanupOk saveOk : Bool) :
    String × Dict × FileState :=
  let st₁ := cleanup_expired_surveys mem file now hoursW saveCleanupOk
  let mem₂ := dictInsert token ⟨issue_key, false, language, now⟩ st₁.1
  let file₂ := if saveOk then FileState.good (save_surveys mem₂) else st₁.2
  let domain := if language = "ru" then "survey.ostrovok.ru" else "survey.emergingtravel.com"
  ("https://" ++ domain ++ "/survey/" ++ token, mem₂, file₂)

/-- `lifespan` startup: `load_surveys()` into empty memory, then one
`cleanup_expired_surveys()` pass. -/
def startupState (file : FileState) (now : DateTime) (hoursW : Nat) (saveOk : Bool) :
    Dict × FileState :=
  cleanup_expired_surveys (load_surveys [] file) file now hoursW saveOk

/-! ## `send_to_jira` -/

/-- What one `requests.post` attempt produces: a response with a status
code, a timeout, a connection failure, or some other exception. -/
inductive AttemptOutcome
  | resp (code : Nat)
  | timedOut
  | connFailed
  | otherFailure
deriving DecidableEq

/-- How a `send_to_jira` call ends. -/
inductive SendOutcome
  | skippedNoUrl
  | delivered (code : Nat)
  | gaveUpServer (code : Nat)
  | abandonedClient (code : Nat)
  | gaveUpTimeout
  | gaveUpConn
  | unexpectedFailure
  | fellThrough
deriving DecidableEq

/-- Observable trace of a `send_to_jira` call: how many attempts were
made, the sleeps between them, and the final outcome. -/
structure SendTrace where
  attempts : Nat
  delays : List Nat
  outcome : SendOutcome
deriving DecidableEq

/-- Outcomes the loop retries: 5xx responses, timeouts, connection
failures. -/
def retriable : AttemptOutcome → Bool
  | .resp code => decide (500 ≤ code) && decide (code < 600)
  | .timedOut => true
  | .connFailed => true
  | .otherFailure => false

/-- The `for attempt in range(max_retries)` loop, the current attempt index
and the number of iterations left. `outs` gives each attempt's outcome. -/
def sendAux (outs : Nat → AttemptOutcome) (baseDelay : Nat) :
    Nat → Nat → SendTrace
  | _, 0 => ⟨0, [], .fellThrough⟩
  | attempt, remaining + 1 =>
    match outs attempt with
    | .resp code =>
      if 200 ≤ code ∧ code < 300 then ⟨1, [], .delivered code⟩
      else if 500 ≤ code ∧ code < 600 then
        if 0 < remaining then
          let t := sendAux outs baseDelay (attempt + 1) remaining
          ⟨t.attempts + 1, baseDelay * 2 ^ attempt :: t.delays, t.outcome⟩
        else ⟨1, [], .gaveUpServer code⟩
      else ⟨1, [], .abandonedClient code⟩
    | .timedOut =>
      if 0 < remaining then
        let t := sendAux outs baseDelay (attempt + 1) remaining
        ⟨t.attempts + 1, baseDelay * 2 ^ attempt :: t.delays, t.outcome⟩
      else ⟨1, [], .gaveUpTimeout⟩
    | .connFailed =>
      if 0 < remaining then
        let t := sendAux outs baseDelay (attempt + 1) remaining
        ⟨t.attempts + 1, baseDelay * 2 ^ attempt :: t.delays, t.outcome⟩
      else ⟨1, [], .gaveUpConn⟩
    | .otherFailure => ⟨1, [], .unexpectedFailure⟩

/-- `send_to_jira`: no attempt at all when `JIRA_WEBHOOK_URL` is unset,
otherwise the retry loop with `max_retries` iterations and exponential
backoff from `baseDelay`. -/
def send_to_jira (url : Option String) (outs : Nat → AttemptOutcome)
    (maxRetries baseDelay : Nat) : SendTrace :=
  match url with
  | none => ⟨0, [], .skippedNoUrl⟩
  | some _ => sendAux outs baseDelay 0 maxRetries

/-! ## Sample values for concrete checks -/

def dtJan1 : DateTime := ⟨2024, 1, 1, 0, 0, 0, 0⟩

def dtJan3 : DateTime := ⟨2024, 1, 3, 0, 0, 0, 0⟩

def dtMicro : DateTime := ⟨2024, 2, 29, 23, 59, 59, 123456⟩

def recSample : SurveyRecord := ⟨"PROJ-1", false, "en", dtJan1⟩

def recUsed : SurveyRecord := ⟨"PROJ-1", true, "en", dtJan1⟩

def recMicro : SurveyRecord := ⟨"PROJ-2", true, "ru", dtMicro⟩

/-! ## Dictionary lemmas -/

theorem lookupD_dictInsert_self {α : Type} (k : String) (v : α) (m : List (String × α)) :
    lookupD k (dictInsert k v m) = some v := by
  induction m with
  | nil => simp [dictInsert, lookupD]
  | cons e rest ih =>
    obtain ⟨k₁, v₁⟩ := e
    by_cases h : k₁ = k <;> simp [dictInsert, lookupD, h, ih]

theorem lookupD_dictInsert_ne {α : Type} {k k₁ : String} (v : α) (m : List (String × α))
    (h : k₁ ≠ k) : lookupD k₁ (dictInsert k v m) = lookupD k₁ m := by
  have hks : k ≠ k₁ := Ne.symm h
  induction m with
  | nil => simp [dictInsert, lookupD, hks]
  | cons e rest ih =>
    obtain ⟨k₂, v₂⟩ := e
    by_cases h₂ : k₂ = k
    · subst h₂
      simp [dictInsert, lookupD, hks]
    · simp [dictInsert, lookupD, h₂, ih]

theorem lookupD_dictErase_self {α : Type} (k : String) (m : List (String × α)) :
    lookupD k (dictErase k m) = none := by
  rw [dictErase]
  induction m with
  | nil => rfl
  | cons e rest ih =>
    obtain ⟨k₁, v₁⟩ := e
    by_cases h : k₁ = k
    · simpa [List.filter_cons, h] using ih
    · simpa [List.filter_cons, h, lookupD] using ih

theorem lookupD_dictErase_ne {α : Type} {k k₁ : String} (m : List (String × α))
    (h : k₁ ≠ k) : lookupD k₁ (dictErase k m) = lookupD k₁ m := by
  rw [dictErase]
  induction m with
  | nil => rfl
  | cons e rest ih =>
    obtain ⟨k₂, v₂⟩ := e
    simp only [decide_not] at ih
    by_cases h₂ : k₂ = k
    · subst h₂
      have hne : k₂ ≠ k₁ := Ne.symm h
      simp [List.filter_cons, lookupD, hne, ih]
    · simp [List.filter_cons, lookupD, h₂, ih]

theorem lookupD_eq_some_mem {α : Type} {k : String} {v : α} {m : List (String × α)}
    (h : lookupD k m = some v) : (k, v) ∈ m := by
  induction m with
  | nil => simp [lookupD] at h
  | cons e rest ih =>
    obtain ⟨k₁, v₁⟩ := e
    by_cases h₁ : k₁ = k
    · subst h₁
      simp [lookupD] at h
      simp [h]
    · simp [lookupD, h₁] at h
      simp [ih h]

theorem mem_lookupD_of_nodup {α : Type} {m : List (String × α)}
    (hnd : (m.map Prod.fst).Nodup) {k : String} {v : α} (h : (k, v) ∈ m) :
    lookupD k m = some v := by
  induction m with
  | nil => simp at h
  | cons e rest ih =>
    obtain ⟨k₁, v₁⟩ := e
    simp only [List.map_cons, List.nodup_cons] at hnd
    rcases List.mem_cons.mp h with h₁ | h₁
    · obtain ⟨hk, hv⟩ := Prod.mk.injEq .. ▸ h₁
      simp [lookupD, hk.symm, hv]
    · have hk : k₁ ≠ k := by
        intro hc
        subst hc
        exact hnd.1 (List.mem_map.mpr ⟨(k₁, v), h₁, rfl⟩)
      simp [lookupD, hk, ih hnd.2 h₁]

theorem lookupD_append_of_none {α : Type} {k : String} {m₁ : List (String × α)}
    (m₂ : List (String × α)) (h : lookupD k m₁ = none) :
    lookupD k (m₁ ++ m₂) = lookupD k m₂ := by
  induction m₁ with
  | nil => simp
  | cons e rest ih =>
    obtain ⟨k₁, v₁⟩ := e
    by_cases h₁ : k₁ = k
    · simp [lookupD, h₁] at h
    · simp [lookupD, h₁] at h ⊢
      exact ih h

theorem dictInsert_append {α : Type} {k : String} {v : α} {m : List (String × α)}
    (h : lookupD k m = none) : dictInsert k v m = m ++ [(k, v)] := by
  induction m with
  | nil => simp [dictInsert]
  | cons e rest ih =>
    obtain ⟨k₁, v₁⟩ := e
    by_cases h₁ : k₁ = k
    · simp [lookupD, h₁] at h
    · simp [lookupD, h₁] at h
      simp [dictInsert, h₁, ih h]

theorem foldl_dictInsert_append {α : Type} (l : List (String × α)) :
    ∀ acc : List (String × α), (l.map Prod.fst).Nodup →
      (∀ k, k ∈ l.map Prod.fst → lookupD k acc = none) →
      l.foldl (fun m e => dictInsert e.1 e.2 m) acc = acc ++ l := by
  induction l with
  | nil => intro acc _ _; simp
  | cons e rest ih =>
    intro acc hnd hdisj
    obtain ⟨k, v⟩ := e
    simp only [List.map_cons, List.nodup_cons] at hnd
    have hk : lookupD k acc = none := hdisj k (by simp)
    have hstep : dictInsert k v acc = acc ++ [(k, v)] := dictInsert_append hk
    have hdisj₂ : ∀ k₁, k₁ ∈ rest.map Prod.fst → lookupD k₁ (acc ++ [(k, v)]) = none := by
      intro k₁ hk₁
      have hne : k₁ ≠ k := fun hc => hnd.1 (hc ▸ hk₁)
      rw [lookupD_append_of_none _ (hdisj k₁ (by simp [hk₁]))]
      simp [lookupD, Ne.symm hne]
    calc ((k, v) :: rest).foldl (fun m e => dictInsert e.1 e.2 m) acc
        = rest.foldl (fun m e => dictInsert e.1 e.2 m) (acc ++ [(k, v)]) := by
          simp [List.foldl_cons, hstep]
      _ = (acc ++ [(k, v)]) ++ rest := ih _ hnd.2 hdisj₂
      _ = acc ++ (k, v) :: rest := by simp

theorem lookupD_foldl_erase {α : Type} (t : String) (toks : List String) :
    ∀ m : List (String × α),
      lookupD t (toks.foldl (fun m₁ t₁ => dictErase t₁ m₁) m) =
        if t ∈ toks then none else lookupD t m := by
  induction toks with
  | nil => intro m; simp
  | cons t₁ rest ih =>
    intro m
    by_cases h : t = t₁
    · subst h
      simp only [List.foldl_cons, ih, List.mem_cons, true_or, if_true]
      by_cases hm : t ∈ rest <;> simp [hm, lookupD_dictErase_self]
    · simp only [List.foldl_cons, ih, List.mem_cons]
      by_cases hm : t ∈ rest <;> simp [hm, h, lookupD_dictErase_ne _ h]

theorem lookupD_save (k : String) (m : Dict) :
    lookupD k (save_surveys m) = (lookupD k m).map serRecord := by
  induction m with
  | nil => simp [save_surveys, lookupD]
  | cons e rest ih =>
    obtain ⟨k₁, r₁⟩ := e
    by_cases h : k₁ = k
    · simp [save_surveys, lookupD, h]
    · simp only [save_surveys, List.map_cons, lookupD, h, if_false]
      simpa [save_surveys] using ih

/-! ## Reconciliation lemmas -/

theorem reloadToken_eq_none {mem : Dict} {file : FileState} {token : String}
    (h : (reloadToken mem file token).1 = none) :
    reloadToken mem file token = (none, mem) := by
  rw [reloadToken.eq_def] at h ⊢
  rcases hm : lookupD token mem with _ | r
  · rcases file with _ | _ | d
    · simp [hm]
    · simp [hm]
    · rcases hd : lookupD token d with _ | sr
      · simp [hm, hd]
      · rcases hp : parseRecord sr with _ | r
        · simp [hm, hd, hp]
        · simp [hm, hd, hp] at h
  · simp [hm] at h

theorem reloadToken_some_cases {mem : Dict} {file : FileState} {token : String}
    {r : SurveyRecord} (h : (reloadToken mem file token).1 = some r) :
    (lookupD token mem = some r ∧ reloadToken mem file token = (some r, mem)) ∨
    (lookupD token mem = none ∧
      (∃ d sr, file = .good d ∧ lookupD token d = some sr ∧ parseRecord sr = some r) ∧
      reloadToken mem file token = (some r, dictInsert token r mem)) := by
  rw [reloadToken.eq_def] at h ⊢
  rcases hm : lookupD token mem with _ | r₁
  · rcases file with _ | _ | d
    · simp [hm] at h
    · simp [hm] at h
    · rcases hd : lookupD token d with _ | sr
      · simp [hm, hd] at h
      · rcases hp : parseRecord sr with _ | r₂
        · simp [hm, hd, hp] at h
        · simp only [hm, hd, hp] at h
          simp only [Option.some.injEq] at h
          subst h
          exact Or.inr ⟨rfl, ⟨d, sr, rfl, hd, hp⟩, by simp [hm, hd, hp]⟩
  · simp only [hm, Option.some.injEq] at h
    subst h
    exact Or.inl ⟨rfl, by simp [hm]⟩

theorem lookupD_reloadToken_some {mem : Dict} {file : FileState} {token : String}
    {r : SurveyRecord} (h : (reloadToken mem file token).1 = some r) :
    lookupD token (reloadToken mem file token).2 = some r := by
  rcases reloadToken_some_cases h with ⟨hm, he⟩ | ⟨hm, _, he⟩
  · rw [he]; exact hm
  · rw [he]; exact lookupD_dictInsert_self token r mem

theorem reloadToken_preserves {mem : Dict} (file : FileState) (token : String)
    {t : String} {r : SurveyRecord} (h : lookupD t mem = some r) :
    lookupD t (reloadToken mem file token).2 = some r := by
  rcases hs : (reloadToken mem file token).1 with _ | r₁
  · rw [reloadToken_eq_none hs]; exact h
  · rcases reloadToken_some_cases hs with ⟨_, he⟩ | ⟨hm, _, he⟩
    · rw [he]; exact h
    · rw [he]
      have hne : t ≠ token := by
        intro hc
        rw [hc, hm] at h
        exact Option.noConfusion h
      rw [lookupD_dictInsert_ne _ _ hne]
      exact h

theorem reloadToken_fst (mem : Dict) (file : FileState) (token : String) :
    (reloadToken mem file token).1 = reloadFind mem file token := by
  rw [reloadToken.eq_def, reloadFind.eq_def]
  split
  · rfl
  · split
    · rfl
    · rfl
    · split
      · rfl
      · split <;> simp [*]

theorem reloadFind_congr {mem mem₂ : Dict} (file : FileState) (t : String)
    (h : lookupD t mem = lookupD t mem₂) :
    reloadFind mem file t = reloadFind mem₂ file t := by
  rw [reloadFind.eq_def, reloadFind.eq_def, h]

theorem reloadToken_fst_after {mem : Dict} {file : FileState} {token : String}
    {r : SurveyRecord} (h : (reloadToken mem file token).1 = some r) (t : String) :
    (reloadToken (reloadToken mem file token).2 file t).1 =
      (reloadToken mem file t).1 := by
  rcases reloadToken_some_cases h with ⟨_, he⟩ | ⟨hm, ⟨d, sr, hf, hd, hp⟩, he⟩
  · rw [he]
  · rw [he, reloadToken_fst, reloadToken_fst]
    by_cases ht : t = token
    · subst ht
      subst hf
      simp [reloadFind.eq_def, lookupD_dictInsert_self, hm, hd, hp]
    · exact reloadFind_congr file t (lookupD_dictInsert_ne _ _ ht)

/-- The view `get_survey` returns is a function of the looked-up record
alone; the memory it returns is the reconciled memory. -/
theorem get_survey_eq (mem : Dict) (file : FileState) (token : String) (now : DateTime)
    (hoursW : Nat) :
    get_survey mem file token now hoursW =
      ((reloadToken mem file token).1.bind (fun r =>
          if expiredB now r.created_at hoursW then none
          else some ⟨r.issue_key, r.language⟩),
        (reloadToken mem file token).2) := by
  rcases hr : reloadToken mem file token with ⟨s, mem₁⟩
  rcases s with _ | r
  · simp [get_survey, hr]
  · simp only [get_survey, hr, Option.some_bind]
    by_cases he : expiredB now r.created_at hoursW <;> simp [he]

/-! ## `submit_survey` characterization -/

theorem submit_survey_invalid {mem : Dict} {file : FileState} {token : String}
    (score : Int) (comment : List Char) (saveOk : Bool)
    (h : (reloadToken mem file token).1 = none) :
    submit_survey mem file token score comment saveOk = (.invalidLink, mem, file) := by
  rw [submit_survey, reloadToken_eq_none h]

theorem submit_survey_found {mem : Dict} {file : FileState} {token : String}
    {r : SurveyRecord} (score : Int) (comment : List Char) (saveOk : Bool)
    (h : (reloadToken mem file token).1 = some r) :
    submit_survey mem file token score comment saveOk =
      if ¬ (score = 1 ∨ score = 2 ∨ score = 3 ∨ score = 4 ∨ score = 5) then
        (.badScore, (reloadToken mem file token).2, file)
      else if score ≤ 4 ∧ pyStrip comment = [] then
        (.commentRequired, (reloadToken mem file token).2, file)
      else
        (.ok r.issue_key, dictErase token (reloadToken mem file token).2,
          if saveOk then
            FileState.good (save_surveys (dictErase token (reloadToken mem file token).2))
          else file) := by
  rcases hr : reloadToken mem file token with ⟨s, mem₁⟩
  rw [hr] at h
  simp only at h
  subst h
  simp only [submit_survey, hr]

/-! ## ISO round-trip lemmas -/

theorem digitChar_toNat (n : Nat) : (digitChar n).toNat = 48 + n % 10 := by
  have h : n % 10 < 10 := Nat.mod_lt _ (by norm_num)
  unfold digitChar
  set k := n % 10 with hk
  interval_cases k <;> decide

theorem charVal_digitChar (n : Nat) : charVal (digitChar n) = n % 10 := by
  simp [charVal, digitChar_toNat]

theorem isDigitCh_digitChar (n : Nat) : isDigitCh (digitChar n) = true := by
  have h : n % 10 < 10 := Nat.mod_lt _ (by norm_num)
  simp [isDigitCh, digitChar_toNat]
  omega

theorem val2_pad2 {n : Nat} (h : n < 100) :
    val2 (digitChar (n / 10)) (digitChar n) = n := by
  simp only [val2, charVal_digitChar]
  omega

theorem val4_pad4 {n : Nat} (h : n < 10000) :
    val4 (digitChar (n / 1000)) (digitChar (n / 100)) (digitChar (n / 10)) (digitChar n)
      = n := by
  simp only [val4, charVal_digitChar]
  omega

theorem val6_pad6 {n : Nat} (h : n < 1000000) :
    val6 (digitChar (n / 100000)) (digitChar (n / 10000)) (digitChar (n / 1000))
      (digitChar (n / 100)) (digitChar (n / 10)) (digitChar n) = n := by
  simp only [val6, charVal_digitChar]
  omega

theorem parseMicro_pad6 {us : Nat} (h : us < 1000000) :
    parseMicro ('.' :: pad6 us) = some us := by
  simp [parseMicro, pad6, isDigitCh_digitChar, val6_pad6 h]

theorem daysInMonth_le (y m : Nat) : daysInMonth y m ≤ 31 := by
  rw [daysInMonth]
  split
  · split <;> omega
  · split <;> omega

theorem fromisoformat_isoformat {d : DateTime} (h : validDTb d = true) :
    fromisoformat (isoformat d) = some d := by
  obtain ⟨y, mo, dy, hh, mi, se, us⟩ := d
  simp only [validDTb, Bool.and_eq_true, decide_eq_true_eq] at h
  obtain ⟨⟨⟨⟨⟨⟨⟨⟨⟨h1, h2⟩, h3⟩, h4⟩, h5⟩, h6⟩, h7⟩, h8⟩, h9⟩, h10⟩ := h
  have hy : y < 10000 := by omega
  have hmo : mo < 100 := by omega
  have hdy : dy < 100 := by have := daysInMonth_le y mo; omega
  have hhh : hh < 100 := by omega
  have hmi : mi < 100 := by omega
  have hse : se < 100 := by omega
  have hus : us < 1000000 := by omega
  have hvd : validDTb ⟨y, mo, dy, hh, mi, se, us⟩ = true := by
    simp only [validDTb, Bool.and_eq_true, decide_eq_true_eq]
    exact ⟨⟨⟨⟨⟨⟨⟨⟨⟨h1, h2⟩, h3⟩, h4⟩, h5⟩, h6⟩, h7⟩, h8⟩, h9⟩, h10⟩
  by_cases h0 : us = 0
  · subst h0
    simp only [isoformat, pad4, pad2, if_pos, List.append_nil, List.cons_append,
      List.nil_append, List.singleton_append, if_true]
    simp [fromisoformat, isDigitCh_digitChar, parseMicro, val4_pad4 hy, val2_pad2 hmo,
      val2_pad2 hdy, val2_pad2 hhh, val2_pad2 hmi, val2_pad2 hse, hvd]
  · simp only [isoformat, pad4, pad2, pad6, if_neg h0, List.cons_append,
      List.nil_append, List.singleton_append, List.append_nil]
    simp [fromisoformat, isDigitCh_digitChar, parseMicro, val4_pad4 hy, val2_pad2 hmo,
      val2_pad2 hdy, val2_pad2 hhh, val2_pad2 hmi, val2_pad2 hse, val6_pad6 hus, hvd]

theorem parseRecord_serRecord {r : SurveyRecord} (h : validDTb r.created_at = true) :
    parseRecord (serRecord r) = some r := by
  obtain ⟨ik, iu, lg, ca⟩ := r
  simp only [serRecord] at h ⊢
  simp [parseRecord, fromisoformat_isoformat h]

theorem parseAll_save {m : Dict} (h : ∀ e ∈ m, validDTb e.2.created_at = true) :
    parseAll (save_surveys m) = some m := by
  induction m with
  | nil => simp [save_surveys, parseAll]
  | cons e rest ih =>
    obtain ⟨k, r⟩ := e
    have h1 : validDTb r.created_at = true := h (k, r) (by simp)
    have h2 : ∀ e ∈ rest, validDTb e.2.created_at = true := fun e he => h e (by simp [he])
    simp only [save_surveys, List.map_cons] at ih ⊢
    simp [parseAll, parseRecord_serRecord h1, ih h2]

/-- Save-then-load restores the identical map. -/
theorem load_save_roundtrip {m : Dict} (hnd : (m.map Prod.fst).Nodup)
    (h : ∀ e ∈ m, validDTb e.2.created_at = true) :
    load_surveys [] (.good (save_surveys m)) = m := by
  have hdisj : ∀ k, k ∈ m.map Prod.fst → lookupD k ([] : Dict) = none := fun k _ => rfl
  simp [load_surveys, parseAll_save h, foldl_dictInsert_append m [] hnd hdisj]

/-- Loading into an empty memory from a parseable file yields exactly the
parsed entries. -/
theorem load_good {d : SerDict} {entries : Dict} (hp : parseAll d = some entries)
    (hnd : (entries.map Prod.fst).Nodup) :
    load_surveys [] (.good d) = entries := by
  have hdisj : ∀ k, k ∈ entries.map Prod.fst → lookupD k ([] : Dict) = none := fun k _ => rfl
  simp [load_surveys, hp, foldl_dictInsert_append entries [] hnd hdisj]

/-! ## Cleanup lemmas -/

theorem cleanup_fst (mem : Dict) (file : FileState) (now : DateTime) (hoursW : Nat)
    (saveOk : Bool) :
    (cleanup_expired_surveys mem file now hoursW saveOk).1 =
      ((mem.filter (fun e => shouldRemove now hoursW e.2)).map Prod.fst).foldl
        (fun m t => dictErase t m) mem := by
  rw [cleanup_expired_surveys]
  split <;> rfl

theorem cleanup_lookup (mem : Dict) (file : FileState) (now : DateTime) (hoursW : Nat)
    (saveOk : Bool) (hnd : (mem.map Prod.fst).Nodup) (t : String) :
    lookupD t (cleanup_expired_surveys mem file now hoursW saveOk).1 =
      match lookupD t mem with
      | none => none
      | some r => if shouldRemove now hoursW r then none else some r := by
  rw [cleanup_fst, lookupD_foldl_erase]
  rcases hm : lookupD t mem with _ | r
  · have hnot : t ∉ (mem.filter (fun e => shouldRemove now hoursW e.2)).map Prod.fst := by
      intro hc
      rcases List.mem_map.mp hc with ⟨⟨t₁, r₁⟩, he, hfst⟩
      subst hfst
      have hmem := List.mem_of_mem_filter he
      rw [mem_lookupD_of_nodup hnd hmem] at hm
      exact Option.noConfusion hm
    simp [hnot, hm]
  · have hmem : (t, r) ∈ mem := lookupD_eq_some_mem hm
    by_cases hrm : shouldRemove now hoursW r = true
    · have hin : t ∈ (mem.filter (fun e => shouldRemove now hoursW e.2)).map Prod.fst :=
        List.mem_map.mpr ⟨(t, r), List.mem_filter.mpr ⟨hmem, hrm⟩, rfl⟩
      simp [hin, hrm]
    · have hnot : t ∉ (mem.filter (fun e => shouldRemove now hoursW e.2)).map Prod.fst := by
        intro hc
        rcases List.mem_map.mp hc with ⟨⟨t₁, r₁⟩, he, hfst⟩
        subst hfst
        have hmem₁ := List.mem_of_mem_filter he
        have hr₁ := List.of_mem_filter he
        rw [mem_lookupD_of_nodup hnd hmem₁] at hm
        injection hm with hm
        subst hm
        exact hrm hr₁
      simp [hnot, hm, hrm]

theorem cleanup_file_removed {mem : Dict} {file : FileState} {now : DateTime}
    {hoursW : Nat} (h : ∃ e ∈ mem, shouldRemove now hoursW e.2 = true) :
    (cleanup_expired_surveys mem file now hoursW true).2 =
      .good (save_surveys (cleanup_expired_surveys mem file now hoursW true).1) := by
  rcases h with ⟨e, he, hrm⟩
  have hne : (mem.filter (fun e => shouldRemove now hoursW e.2)).map Prod.fst ≠ [] := by
    have : e ∈ mem.filter (fun e => shouldRemove now hoursW e.2) :=
      List.mem_filter.mpr ⟨he, hrm⟩
    intro hc
    rw [List.map_eq_nil_iff] at hc
    rw [hc] at this
    exact List.not_mem_nil e this
  rw [cleanup_expired_surveys]
  simp [List.isEmpty_iff, hne]

theorem cleanup_noop {mem : Dict} {file : FileState} {now : DateTime} {hoursW : Nat}
    (saveOk : Bool) (h : ∀ e ∈ mem, shouldRemove now hoursW e.2 = false) :
    cleanup_expired_surveys mem file now hoursW saveOk = (mem, file) := by
  have hfil : mem.filter (fun e => shouldRemove now hoursW e.2) = [] :=
    List.filter_eq_nil_iff.mpr (fun e he => by simp [h e he])
  rw [cleanup_expired_surveys]
  simp [hfil]

/-! ## `str.strip` lemma -/

theorem pyStrip_eq_nil_iff (s : List Char) :
    pyStrip s = [] ↔ s.all isSpaceCh = true := by
  rw [pyStrip, List.reverse_eq_nil_iff, List.dropWhile_eq_nil_iff, List.all_eq_true]
  constructor
  · intro h x hx
    by_cases hdx : x ∈ s.dropWhile isSpaceCh
    · exact h x (List.mem_reverse.mpr hdx)
    · have hx₂ : x ∈ s.takeWhile isSpaceCh ++ s.dropWhile isSpaceCh := by
        rw [List.takeWhile_append_dropWhile]
        exact hx
      rcases List.mem_append.mp hx₂ with h₁ | h₁
      · exact List.mem_takeWhile_imp h₁
      · exact absurd h₁ hdx
  · intro h x hx
    exact h x ((List.dropWhile_suffix isSpaceCh).sublist.subset (List.mem_reverse.mp hx))

/-! ## `send_to_jira` lemmas -/

theorem sendAux_attempts_le (outs : Nat → AttemptOutcome) (baseDelay : Nat) :
    ∀ remaining attempt, (sendAux outs baseDelay attempt remaining).attempts ≤ remaining := by
  intro remaining
  induction remaining with
  | zero => intro attempt; simp [sendAux]
  | succ r ih =>
    intro attempt
    have h1 := ih (attempt + 1)
    rcases houts : outs attempt with code | _ | _ | _ <;>
      simp only [sendAux, houts]
    all_goals repeat' split
    all_goals try dsimp only
    all_goals omega

theorem sendAux_success {outs : Nat → AttemptOutcome} {baseDelay attempt r code : Nat}
    (ho : outs attempt = .resp code) (h1 : 200 ≤ code) (h2 : code < 300) :
    sendAux outs baseDelay attempt (r + 1) = ⟨1, [], .delivered code⟩ := by
  have hc : 200 ≤ code ∧ code < 300 := ⟨h1, h2⟩
  rw [sendAux]
  simp [ho, hc]

theorem sendAux_client {outs : Nat → AttemptOutcome} {baseDelay attempt r code : Nat}
    (ho : outs attempt = .resp code) (h4 : 400 ≤ code) (h5 : code < 500) :
    sendAux outs baseDelay attempt (r + 1) = ⟨1, [], .abandonedClient code⟩ := by
  have hno2 : ¬ (200 ≤ code ∧ code < 300) := by omega
  have hno5 : ¬ (500 ≤ code ∧ code < 600) := by omega
  rw [sendAux]
  simp [ho, hno2, hno5]

theorem sendAux_retry {outs : Nat → AttemptOutcome} {baseDelay attempt r : Nat}
    (h : retriable (outs attempt) = true) (hr : 0 < r) :
    sendAux outs baseDelay attempt (r + 1) =
      ⟨(sendAux outs baseDelay (attempt + 1) r).attempts + 1,
        baseDelay * 2 ^ attempt :: (sendAux outs baseDelay (attempt + 1) r).delays,
        (sendAux outs baseDelay (attempt + 1) r).outcome⟩ := by
  rcases ho : outs attempt with code | _ | _ | _
  · rw [ho] at h
    simp only [retriable, Bool.and_eq_true, decide_eq_true_eq] at h
    have hno2 : ¬ (200 ≤ code ∧ code < 300) := by omega
    rw [sendAux]
    simp [ho, hno2, h, hr]
  · rw [sendAux]
    simp [ho, hr]
  · rw [sendAux]
    simp [ho, hr]
  · rw [ho] at h
    simp [retriable] at h

theorem sendAux_last {outs : Nat → AttemptOutcome} {baseDelay attempt : Nat}
    (h : retriable (outs attempt) = true) :
    (sendAux outs baseDelay attempt 1).attempts = 1
    ∧ (sendAux outs baseDelay attempt 1).delays = [] := by
  rcases ho : outs attempt with code | _ | _ | _
  · rw [ho] at h
    simp only [retriable, Bool.and_eq_true, decide_eq_true_eq] at h
    have hno2 : ¬ (200 ≤ code ∧ code < 300) := by omega
    rw [show (1 : Nat) = 0 + 1 from rfl, sendAux]
    simp [ho, hno2, h]
  · rw [show (1 : Nat) = 0 + 1 from rfl, sendAux]
    simp [ho]
  · rw [show (1 : Nat) = 0 + 1 from rfl, sendAux]
    simp [ho]
  · rw [ho] at h
    simp [retriable] at h

/-! ## Claim theorems -/

/-- C1 counterexample: the claim says an expired token is returned absent
by consume, but `submit_survey` never checks expiry: a record created at
`dtJan1` is expired at `dtJan3` under a 24-hour window, yet submitting it
succeeds and consumes it. -/
theorem claim1_counterexample :
    expiredB dtJan3 dtJan1 24 = true
    ∧ (submit_survey [("t", recSample)] .missing "t" 5 [] true).1 = .ok "PROJ-1" := by
  constructor
  · decide
  · decide

/-- C1 (amended): `submit_survey` (the consume operation) returns the
invalid-link outcome and leaves memory and file untouched whenever the
token resolves to no record (never existed in memory or on disk, or
already consumed); and after one successful consume whose save succeeded,
every later consume or get of that same token returns absent — exactly one
success per token.  Expiry is not checked by consume. -/
theorem claim1_consume_semantics (mem : Dict) (file : FileState) (token : String)
    (score : Int) (comment : List Char) :
    ((reloadToken mem file token).1 = none → ∀ saveOk,
        submit_survey mem file token score comment saveOk = (.invalidLink, mem, file))
    ∧ (∀ k mem₂ file₂,
        submit_survey mem file token score comment true = (.ok k, mem₂, file₂) →
        (∀ score₂ comment₂ saveOk₂,
            submit_survey mem₂ file₂ token score₂ comment₂ saveOk₂
              = (.invalidLink, mem₂, file₂))
        ∧ (∀ now hoursW, (get_survey mem₂ file₂ token now hoursW).1 = none)) := by
  constructor
  · intro h saveOk
    exact submit_survey_invalid score comment saveOk h
  · intro k mem₂ file₂ h
    rcases hs : (reloadToken mem file token).1 with _ | r
    · rw [submit_survey_invalid score comment true hs] at h
      exact absurd (congrArg (fun p => p.1) h) (by simp)
    · rw [submit_survey_found score comment true hs] at h
      by_cases hsc : ¬ (score = 1 ∨ score = 2 ∨ score = 3 ∨ score = 4 ∨ score = 5)
      · rw [if_pos hsc] at h
        exact absurd (congrArg (fun p => p.1) h) (by simp)
      · rw [if_neg hsc] at h
        by_cases hcm : score ≤ 4 ∧ pyStrip comment = []
        · rw [if_pos hcm] at h
          exact absurd (congrArg (fun p => p.1) h) (by simp)
        · rw [if_neg hcm, if_pos rfl] at h
          have hmem : mem₂ = dictErase token (reloadToken mem file token).2 := by
            have := congrArg (fun p => p.2.1) h
            simpa using this.symm
          have hfile : file₂ = FileState.good
              (save_surveys (dictErase token (reloadToken mem file token).2)) := by
            have := congrArg (fun p => p.2.2) h
            simpa using this.symm
          subst hmem
          subst hfile
          have habs : (reloadToken (dictErase token (reloadToken mem file token).2)
              (FileState.good (save_surveys
                (dictErase token (reloadToken mem file token).2))) token).1 = none := by
            rw [reloadToken_fst, reloadFind.eq_def]
            simp [lookupD_dictErase_self, lookupD_save]
          constructor
          · intro score₂ comment₂ saveOk₂
            exact submit_survey_invalid score₂ comment₂ saveOk₂ habs
          · intro now hoursW
            simp only [get_survey_eq]
            simp [habs]

/-- C1 witness: a token absent everywhere is rejected with no state
change; after a successful consume the same token is rejected by a second
submit and invisible to get. -/
theorem claim1_consume_semantics_witness :
    (submit_survey [("t", recSample)] FileState.missing "u" 5 [] true
        = (.invalidLink, [("t", recSample)], FileState.missing))
    ∧ (submit_survey [] (.good []) "t" 5 ['x'] true = (.invalidLink, [], .good []))
    ∧ ((get_survey [] (.good []) "t" dtJan3 24).1 = none) :=
  ⟨(claim1_consume_semantics [("t", recSample)] .missing "u" 5 []).1 (by decide) true,
   ((claim1_consume_semantics [("t", recSample)] .missing "t" 5 []).2 "PROJ-1" [] (.good [])
      (by decide)).1 5 ['x'] true,
   ((claim1_consume_semantics [("t", recSample)] .missing "t" 5 []).2 "PROJ-1" [] (.good [])
      (by decide)).2 dtJan3 24⟩

/-- C2 counterexample: the claim says get returns a record only if its
is_used flag is false, but `get_survey` never reads is_used: a used record
inside the expiry window is still returned. -/
theorem claim2_counterexample :
    recUsed.is_used = true
    ∧ (get_survey [("t", recUsed)] .missing "t" dtJan1 24).1 = some ⟨"PROJ-1", "en"⟩ := by
  constructor
  · rfl
  · decide

/-- C2 (amended): `get_survey` returns the record's view iff the token
resolves to a record (memory first, then a disk merge on a miss) and
`now - created_at` is at most the expiry window; the is_used flag is not
consulted; `get_survey` never mutates an existing record — in particular
it never flips is_used. -/
theorem claim2_get_visibility (mem : Dict) (file : FileState) (token : String)
    (now : DateTime) (hoursW : Nat) :
    ((reloadToken mem file token).1 = none →
        (get_survey mem file token now hoursW).1 = none)
    ∧ (∀ r, (reloadToken mem file token).1 = some r →
        (get_survey mem file token now hoursW).1 =
          (if expiredB now r.created_at hoursW then none
           else some ⟨r.issue_key, r.language⟩))
    ∧ (∀ t r, lookupD t mem = some r →
        lookupD t (get_survey mem file token now hoursW).2 = some r) := by
  refine ⟨?_, ?_, ?_⟩
  · intro h
    simp only [get_survey_eq]
    simp [h]
  · intro r h
    simp only [get_survey_eq]
    simp [h]
  · intro t r h
    simp only [get_survey_eq]
    exact reloadToken_preserves file token h

/-- C2 witness: an absent token yields none; a fresh record is returned
with its issue key and language; the underlying record is untouched. -/
theorem claim2_get_visibility_witness :
    ((get_survey [] .missing "t" dtJan1 24).1 = none)
    ∧ ((get_survey [("t", recSample)] .missing "t" dtJan1 24).1 =
        (if expiredB dtJan1 recSample.created_at 24 then none
         else some ⟨"PROJ-1", "en"⟩))
    ∧ (lookupD "t" (get_survey [("t", recSample)] .missing "t" dtJan1 24).2 =
        some recSample) :=
  ⟨(claim2_get_visibility [] .missing "t" dtJan1 24).1 (by decide),
   (claim2_get_visibility [("t", recSample)] .missing "t" dtJan1 24).2.1 recSample (by decide),
   (claim2_get_visibility [("t", recSample)] .missing "t" dtJan1 24).2.2 "t" recSample
     (by decide)⟩

/-- C3 counterexample: the claim says a token absent from the on-disk
snapshot is treated as absent even if a copy is in memory, but the code
checks memory first: with an existing on-disk document that lacks the
token, get still returns the in-memory record. -/
theorem claim3_counterexample :
    (get_survey [("t", recSample)] (.good []) "t" dtJan1 24).1 =
      some ⟨"PROJ-1", "en"⟩ := by
  decide

/-- C3 (amended): `get_survey` and `submit_survey` check the in-memory map
first and consult the file only on a memory miss, merging just the
requested token; a record present on disk but not in memory is found, and
in particular served by get when unexpired. -/
theorem claim3_memory_first (mem : Dict) (file : FileState) (token : String) :
    (∀ r, lookupD token mem = some r → reloadToken mem file token = (some r, mem))
    ∧ (∀ d sr r, lookupD token mem = none → file = .good d →
        lookupD token d = some sr → parseRecord sr = some r →
        reloadToken mem file token = (some r, dictInsert token r mem))
    ∧ (∀ d sr r now hoursW, lookupD token mem = none → file = .good d →
        lookupD token d = some sr → parseRecord sr = some r →
        expiredB now r.created_at hoursW = false →
        (get_survey mem file token now hoursW).1 = some ⟨r.issue_key, r.language⟩) := by
  refine ⟨?_, ?_, ?_⟩
  · intro r h
    rw [reloadToken.eq_def, h]
  · intro d sr r hm hf hd hp
    subst hf
    rw [reloadToken.eq_def, hm]
    simp [hd, hp]
  · intro d sr r now hoursW hm hf hd hp hexp
    subst hf
    have hfound : (reloadToken mem (.good d) token).1 = some r := by
      rw [reloadToken_fst, reloadFind.eq_def, hm]
      simp [hd, hp]
    simp only [get_survey_eq]
    simp [hfound, hexp]

/-- C3 witness: a token in memory is served without consulting the file; a
token only on disk is merged and served. -/
theorem claim3_memory_first_witness :
    (reloadToken [("t", recSample)] (.good []) "t" = (some recSample, [("t", recSample)]))
    ∧ (reloadToken [] (.good [("t", serRecord recSample)]) "t"
        = (some recSample, [("t", recSample)]))
    ∧ ((get_survey [] (.good [("t", serRecord recSample)]) "t" dtJan1 24).1
        = some ⟨"PROJ-1", "en"⟩) :=
  ⟨(claim3_memory_first [("t", recSample)] (.good []) "t").1 recSample (by decide),
   (claim3_memory_first [] (.good [("t", serRecord recSample)]) "t").2.1
     [("t", serRecord recSample)] (serRecord recSample) recSample (by decide) rfl
     (by decide) (by decide),
   (claim3_memory_first [] (.good [("t", serRecord recSample)]) "t").2.2
     [("t", serRecord recSample)] (serRecord recSample) recSample dtJan1 24
     (by decide) rfl (by decide) (by decide) (by decide)⟩

/-- C4: a submission failing validation (score outside 1..5, or score ≤ 4
with an empty-after-strip comment) is rejected before any mutation: no
success result, the file is untouched, every record already in memory is
still there unchanged, and a subsequent get of any token at any time
returns exactly what it returned before. -/
theorem claim4_validation_no_mutation (mem : Dict) (file : FileState) (token : String)
    (score : Int) (comment : List Char) (saveOk : Bool)
    (hv : ¬ (1 ≤ score ∧ score ≤ 5) ∨ (score ≤ 4 ∧ pyStrip comment = [])) :
    (∀ k, (submit_survey mem file token score comment saveOk).1 ≠ .ok k)
    ∧ (submit_survey mem file token score comment saveOk).2.2 = file
    ∧ (∀ t r, lookupD t mem = some r →
        lookupD t (submit_survey mem file token score comment saveOk).2.1 = some r)
    ∧ (∀ t now hoursW,
        (get_survey (submit_survey mem file token score comment saveOk).2.1
            file t now hoursW).1
          = (get_survey mem file t now hoursW).1) := by
  rcases hs : (reloadToken mem file token).1 with _ | r
  · rw [submit_survey_invalid score comment saveOk hs]
    refine ⟨by simp, rfl, ?_, ?_⟩
    · intro t r h
      exact h
    · intro t now hoursW
      rfl
  · rw [submit_survey_found score comment saveOk hs]
    have hcond : (¬ (score = 1 ∨ score = 2 ∨ score = 3 ∨ score = 4 ∨ score = 5))
        ∨ (score ≤ 4 ∧ pyStrip comment = []) := by
      rcases hv with hv | hv
      · left
        omega
      · right
        exact hv
    by_cases h1 : ¬ (score = 1 ∨ score = 2 ∨ score = 3 ∨ score = 4 ∨ score = 5)
    · rw [if_pos h1]
      refine ⟨by simp, rfl, ?_, ?_⟩
      · intro t r₁ h
        exact reloadToken_preserves file token h
      · intro t now hoursW
        simp only [get_survey_eq]
        rw [reloadToken_fst_after hs t]
    · rw [if_neg h1]
      have h2 : score ≤ 4 ∧ pyStrip comment = [] := by
        rcases hcond with hc | hc
        · exact absurd hc h1
        · exact hc
      rw [if_pos h2]
      refine ⟨by simp, rfl, ?_, ?_⟩
      · intro t r₁ h
        exact reloadToken_preserves file token h
      · intro t now hoursW
        simp only [get_survey_eq]
        rw [reloadToken_fst_after hs t]

/-- C4 witness: score 2 with an empty comment on a live token is rejected,
the file and record survive, and get is unaffected. -/
theorem claim4_validation_no_mutation_witness :
    ((submit_survey [("t", recSample)] .missing "t" 2 [] true).1 ≠ .ok "PROJ-1")
    ∧ (submit_survey [("t", recSample)] .missing "t" 2 [] true).2.2 = .missing
    ∧ lookupD "t" (submit_survey [("t", recSample)] .missing "t" 2 [] true).2.1
        = some recSample
    ∧ (get_survey (submit_survey [("t", recSample)] .missing "t" 2 [] true).2.1
          .missing "t" dtJan1 24).1
        = (get_survey [("t", recSample)] .missing "t" dtJan1 24).1 :=
  ⟨(claim4_validation_no_mutation [("t", recSample)] .missing "t" 2 [] true
      (Or.inr ⟨by decide, by decide⟩)).1 "PROJ-1",
   (claim4_validation_no_mutation [("t", recSample)] .missing "t" 2 [] true
      (Or.inr ⟨by decide, by decide⟩)).2.1,
   (claim4_validation_no_mutation [("t", recSample)] .missing "t" 2 [] true
      (Or.inr ⟨by decide, by decide⟩)).2.2.1 "t" recSample (by decide),
   (claim4_validation_no_mutation [("t", recSample)] .missing "t" 2 [] true
      (Or.inr ⟨by decide, by decide⟩)).2.2.2 "t" dtJan1 24⟩

/-- C5: `cleanup_expired_surveys` removes exactly the used-or-expired
records and leaves every other record; it persists the snapshot exactly
when something was removed; and after the startup pass (load from disk,
then cleanup) an on-disk record older than the expiry window is absent
both from every subsequent get and from the saved document. -/
theorem claim5_cleanup_spec :
    (∀ mem file now hoursW, (mem.map Prod.fst).Nodup → ∀ t : String,
        lookupD t (cleanup_expired_surveys mem file now hoursW true).1 =
          match lookupD t mem with
          | none => none
          | some r => if shouldRemove now hoursW r then none else some r)
    ∧ (∀ mem file now hoursW, (∃ e ∈ mem, shouldRemove now hoursW e.2 = true) →
        (cleanup_expired_surveys mem file now hoursW true).2 =
          .good (save_surveys (cleanup_expired_surveys mem file now hoursW true).1))
    ∧ (∀ mem file now hoursW saveOk, (∀ e ∈ mem, shouldRemove now hoursW e.2 = false) →
        cleanup_expired_surveys mem file now hoursW saveOk = (mem, file))
    ∧ (∀ d entries t r now hoursW, parseAll d = some entries →
        (entries.map Prod.fst).Nodup → lookupD t entries = some r →
        shouldRemove now hoursW r = true →
        (∀ now₂ hoursW₂,
          (get_survey (startupState (.good d) now hoursW true).1
            (startupState (.good d) now hoursW true).2 t now₂ hoursW₂).1 = none)
        ∧ (∃ d₂, (startupState (.good d) now hoursW true).2 = .good d₂
            ∧ lookupD t d₂ = none)) := by
  refine ⟨?_, ?_, ?_, ?_⟩
  · intro mem file now hoursW hnd t
    exact cleanup_lookup mem file now hoursW true hnd t
  · intro mem file now hoursW h
    exact cleanup_file_removed h
  · intro mem file now hoursW saveOk h
    exact cleanup_noop saveOk h
  · intro d entries t r now hoursW hp hnd hl hrm
    have hload : load_surveys [] (.good d) = entries := load_good hp hnd
    have hstart : startupState (.good d) now hoursW true =
        cleanup_expired_surveys entries (.good d) now hoursW true := by
      rw [startupState, hload]
    have hmem : lookupD t (cleanup_expired_surveys entries (.good d) now hoursW true).1
        = none := by
      rw [cleanup_lookup entries (.good d) now hoursW true hnd t, hl]
      simp [hrm]
    have hex : ∃ e ∈ entries, shouldRemove now hoursW e.2 = true :=
      ⟨(t, r), lookupD_eq_some_mem hl, hrm⟩
    have hfile : (cleanup_expired_surveys entries (.good d) now hoursW true).2 =
        .good (save_surveys (cleanup_expired_surveys entries (.good d) now hoursW true).1) :=
      cleanup_file_removed hex
    have hser : lookupD t
        (save_surveys (cleanup_expired_surveys entries (.good d) now hoursW true).1)
        = none := by
      rw [lookupD_save, hmem]
      rfl
    have habs : (reloadToken (cleanup_expired_surveys entries (.good d) now hoursW true).1
        (.good (save_surveys (cleanup_expired_surveys entries (.good d) now hoursW true).1))
        t).1 = none := by
      rw [reloadToken_fst, reloadFind.eq_def, hmem]
      simp [hser]
    constructor
    · intro now₂ hoursW₂
      rw [hstart, hfile]
      simp only [get_survey_eq]
      simp [habs]
    · exact ⟨save_surveys (cleanup_expired_surveys entries (.good d) now hoursW true).1,
        by rw [hstart, hfile], hser⟩

/-- C5 witness: a used record is removed and the file rewritten; a live
record survives with no save; an expired on-disk record is gone after the
startup pass. -/
theorem claim5_cleanup_spec_witness :
    (lookupD "t" (cleanup_expired_surveys [("t", recUsed)] .missing dtJan1 24 true).1
        = none)
    ∧ ((cleanup_expired_surveys [("t", recUsed)] .missing dtJan1 24 true).2 =
        .good (save_surveys (cleanup_expired_surveys [("t", recUsed)] .missing dtJan1 24
          true).1))
    ∧ (cleanup_expired_surveys [("t", recSample)] .missing dtJan1 24 true
        = ([("t", recSample)], .missing))
    ∧ ((get_survey (startupState (.good [("t", serRecord recSample)]) dtJan3 24 true).1
          (startupState (.good [("t", serRecord recSample)]) dtJan3 24 true).2
          "t" dtJan3 24).1 = none) := by
  refine ⟨?_, ?_, ?_, ?_⟩
  · exact (claim5_cleanup_spec.1 [("t", recUsed)] .missing dtJan1 24 (by decide) "t").trans
      (by decide)
  · exact claim5_cleanup_spec.2.1 [("t", recUsed)] .missing dtJan1 24
      ⟨("t", recUsed), by decide, by decide⟩
  · exact claim5_cleanup_spec.2.2.1 [("t", recSample)] .missing dtJan1 24 true (by decide)
  · exact (claim5_cleanup_spec.2.2.2 [("t", serRecord recSample)] [("t", recSample)] "t"
      recSample dtJan3 24 (by decide) (by decide) (by decide) (by decide)).1 dtJan3 24

/-- C6 counterexample: the claim says a failed load keeps the prior
in-memory state, but `load_surveys` on an undecodable file resets
`pending_surveys` to empty. -/
theorem claim6_counterexample :
    load_surveys [("t", recSample)] .corrupt ≠ [("t", recSample)] := by
  decide

/-- C6 (amended): a deserialization failure is absorbed (the function
returns instead of raising) but resets the in-memory state to empty rather
than keeping it; the prior state is kept only when the file is missing.
At startup — the only call site — the prior state is empty, so the reset
coincides with keeping it there. -/
theorem claim6_load_failure_resets (prior : Dict) :
    load_surveys prior .corrupt = []
    ∧ load_surveys prior .missing = prior
    ∧ (∀ d, parseAll d = none → load_surveys prior (.good d) = []) := by
  refine ⟨rfl, rfl, ?_⟩
  intro d h
  simp [load_surveys, h]

/-- C6 witness: with one record in memory, a corrupt file wipes it, a
missing file keeps it, and a file whose record fails to parse wipes it. -/
theorem claim6_load_failure_resets_witness :
    load_surveys [("t", recSample)] .corrupt = []
    ∧ load_surveys [("t", recSample)] .missing = [("t", recSample)]
    ∧ load_surveys [("t", recSample)] (.good [("t", ⟨"K", false, "en", []⟩)]) = [] :=
  ⟨(claim6_load_failure_resets [("t", recSample)]).1,
   (claim6_load_failure_resets [("t", recSample)]).2.1,
   (claim6_load_failure_resets [("t", recSample)]).2.2 [("t", ⟨"K", false, "en", []⟩)]
     (by decide)⟩

/-- C7 counterexample: the claim says an add whose persistence failed
surfaces an error, but `create_survey` returns the success link even when
the save failed and the file was left untouched. -/
theorem claim7_counterexample :
    (create_survey [] .missing "PROJ-1" "en" "tok" dtJan1 24 true false).1 =
      "https://survey.emergingtravel.com/survey/tok"
    ∧ (create_survey [] .missing "PROJ-1" "en" "tok" dtJan1 24 true false).2.2 =
      .missing := by
  constructor
  · decide
  · decide

/-- C7 (amended): `save_surveys` swallows every failure, and both
`create_survey` and `submit_survey` report the same caller-visible result
whether or not persistence succeeded — no error is surfaced. -/
theorem claim7_silent_persistence (mem : Dict) (file : FileState)
    (issue_key language token : String) (now : DateTime) (hoursW : Nat)
    (saveCleanupOk : Bool) (tok₂ : String) (score : Int) (comment : List Char) :
    (create_survey mem file issue_key language token now hoursW saveCleanupOk false).1 =
      (create_survey mem file issue_key language token now hoursW saveCleanupOk true).1
    ∧ (submit_survey mem file tok₂ score comment false).1 =
      (submit_survey mem file tok₂ score comment true).1 := by
  constructor
  · rfl
  · rcases hs : (reloadToken mem file tok₂).1 with _ | r
    · rw [submit_survey_invalid score comment false hs,
        submit_survey_invalid score comment true hs]
    · rw [submit_survey_found score comment false hs,
        submit_survey_found score comment true hs]
      by_cases h1 : ¬ (score = 1 ∨ score = 2 ∨ score = 3 ∨ score = 4 ∨ score = 5)
      · simp [h1]
      · by_cases h2 : score ≤ 4 ∧ pyStrip comment = [] <;> simp [h1, h2]

/-- C8: persistence round-trips exactly: a valid timestamp survives
isoformat/fromisoformat unchanged, and saving any well-formed in-memory
map and loading it into fresh state restores the identical map,
field for field. -/
theorem claim8_durability_roundtrip :
    (∀ dt, validDTb dt = true → fromisoformat (isoformat dt) = some dt)
    ∧ (∀ m : Dict, (m.map Prod.fst).Nodup →
        (∀ e ∈ m, validDTb e.2.created_at = true) →
        load_surveys [] (.good (save_surveys m)) = m) :=
  ⟨fun _ h => fromisoformat_isoformat h, fun _ hnd h => load_save_roundtrip hnd h⟩

/-- C8 witness: a leap-day timestamp with microseconds round-trips, and a
two-record store (zero and nonzero microseconds, both flag values)
reloads identically. -/
theorem claim8_durability_roundtrip_witness :
    fromisoformat (isoformat dtMicro) = some dtMicro
    ∧ load_surveys [] (.good (save_surveys [("t", recSample), ("u", recMicro)]))
        = [("t", recSample), ("u", recMicro)] :=
  ⟨claim8_durability_roundtrip.1 dtMicro (by decide),
   claim8_durability_roundtrip.2 [("t", recSample), ("u", recMicro)] (by decide)
     (by decide)⟩

/-- C9: the forwarder makes no attempt when no webhook URL is configured;
never makes more than 3 attempts; stops with success as soon as any
attempt gets a 2xx response, whatever retried outcomes preceded it;
abandons immediately on a 4xx response; in both cases exactly the backoff
delays baseDelay * 2 ^ attempt were slept before the final attempt; and on
a run of retriable outcomes (5xx, timeout, connection failure) makes
exactly 3 attempts with delays baseDelay and 2 * baseDelay before giving
up. -/
theorem claim9_forwarder_policy :
    (∀ outs maxRetries baseDelay,
        send_to_jira none outs maxRetries baseDelay = ⟨0, [], .skippedNoUrl⟩)
    ∧ (∀ url outs baseDelay, (send_to_jira (some url) outs 3 baseDelay).attempts ≤ 3)
    ∧ (∀ url outs baseDelay k code, k < 3 → (∀ j, j < k → retriable (outs j) = true) →
        outs k = .resp code → 200 ≤ code → code < 300 →
        send_to_jira (some url) outs 3 baseDelay =
          ⟨k + 1, (List.range k).map (fun j => baseDelay * 2 ^ j),
            .delivered code⟩)
    ∧ (∀ url outs baseDelay k code, k < 3 → (∀ j, j < k → retriable (outs j) = true) →
        outs k = .resp code → 400 ≤ code → code < 500 →
        send_to_jira (some url) outs 3 baseDelay =
          ⟨k + 1, (List.range k).map (fun j => baseDelay * 2 ^ j),
            .abandonedClient code⟩)
    ∧ (∀ url outs baseDelay, (∀ j, j < 3 → retriable (outs j) = true) →
        (send_to_jira (some url) outs 3 baseDelay).attempts = 3
        ∧ (send_to_jira (some url) outs 3 baseDelay).delays
            = [baseDelay, baseDelay * 2]) := by
  refine ⟨?_, ?_, ?_, ?_, ?_⟩
  · intro outs maxRetries baseDelay
    rfl
  · intro url outs baseDelay
    exact sendAux_attempts_le outs baseDelay 3 0
  · intro url outs baseDelay k code hk hr ho h1 h2
    rw [send_to_jira]
    interval_cases k
    · have e1 : sendAux outs baseDelay 0 3 = ⟨1, [], .delivered code⟩ :=
        sendAux_success ho h1 h2
      rw [e1]
      simp
    · have h0 := hr 0 (by norm_num)
      have e1 : sendAux outs baseDelay 0 3 =
          ⟨(sendAux outs baseDelay 1 2).attempts + 1,
            baseDelay * 2 ^ 0 :: (sendAux outs baseDelay 1 2).delays,
            (sendAux outs baseDelay 1 2).outcome⟩ :=
        sendAux_retry h0 (by norm_num)
      have e2 : sendAux outs baseDelay 1 2 = ⟨1, [], .delivered code⟩ :=
        sendAux_success ho h1 h2
      rw [e1, e2]
      simp [List.range_succ]
    · have h0 := hr 0 (by norm_num)
      have h1p := hr 1 (by norm_num)
      have e1 : sendAux outs baseDelay 0 3 =
          ⟨(sendAux outs baseDelay 1 2).attempts + 1,
            baseDelay * 2 ^ 0 :: (sendAux outs baseDelay 1 2).delays,
            (sendAux outs baseDelay 1 2).outcome⟩ :=
        sendAux_retry h0 (by norm_num)
      have e2 : sendAux outs baseDelay 1 2 =
          ⟨(sendAux outs baseDelay 2 1).attempts + 1,
            baseDelay * 2 ^ 1 :: (sendAux outs baseDelay 2 1).delays,
            (sendAux outs baseDelay 2 1).outcome⟩ :=
        sendAux_retry h1p (by norm_num)
      have e3 : sendAux outs baseDelay 2 1 = ⟨1, [], .delivered code⟩ :=
        sendAux_success ho h1 h2
      rw [e1, e2, e3]
      simp [List.range_succ]
  · intro url outs baseDelay k code hk hr ho h4 h5
    rw [send_to_jira]
    interval_cases k
    · have e1 : sendAux outs baseDelay 0 3 = ⟨1, [], .abandonedClient code⟩ :=
        sendAux_client ho h4 h5
      rw [e1]
      simp
    · have h0 := hr 0 (by norm_num)
      have e1 : sendAux outs baseDelay 0 3 =
          ⟨(sendAux outs baseDelay 1 2).attempts + 1,
            baseDelay * 2 ^ 0 :: (sendAux outs baseDelay 1 2).delays,
            (sendAux outs baseDelay 1 2).outcome⟩ :=
        sendAux_retry h0 (by norm_num)
      have e2 : sendAux outs baseDelay 1 2 = ⟨1, [], .abandonedClient code⟩ :=
        sendAux_client ho h4 h5
      rw [e1, e2]
      simp [List.range_succ]
    · have h0 := hr 0 (by norm_num)
      have h1 := hr 1 (by norm_num)
      have e1 : sendAux outs baseDelay 0 3 =
          ⟨(sendAux outs baseDelay 1 2).attempts + 1,
            baseDelay * 2 ^ 0 :: (sendAux outs baseDelay 1 2).delays,
            (sendAux outs baseDelay 1 2).outcome⟩ :=
        sendAux_retry h0 (by norm_num)
      have e2 : sendAux outs baseDelay 1 2 =
          ⟨(sendAux outs baseDelay 2 1).attempts + 1,
            baseDelay * 2 ^ 1 :: (sendAux outs baseDelay 2 1).delays,
            (sendAux outs baseDelay 2 1).outcome⟩ :=
        sendAux_retry h1 (by norm_num)
      have e3 : sendAux outs baseDelay 2 1 = ⟨1, [], .abandonedClient code⟩ :=
        sendAux_client ho h4 h5
      rw [e1, e2, e3]
      simp [List.range_succ]
  · intro url outs baseDelay hall
    have h0 := hall 0 (by norm_num)
    have h1 := hall 1 (by norm_num)
    have h2 := hall 2 (by norm_num)
    rw [send_to_jira]
    have e1 : sendAux outs baseDelay 0 3 =
        ⟨(sendAux outs baseDelay 1 2).attempts + 1,
          baseDelay * 2 ^ 0 :: (sendAux outs baseDelay 1 2).delays,
          (sendAux outs baseDelay 1 2).outcome⟩ :=
      sendAux_retry h0 (by norm_num)
    have e2 : sendAux outs baseDelay 1 2 =
        ⟨(sendAux outs baseDelay 2 1).attempts + 1,
          baseDelay * 2 ^ 1 :: (sendAux outs baseDelay 2 1).delays,
          (sendAux outs baseDelay 2 1).outcome⟩ :=
      sendAux_retry h1 (by norm_num)
    obtain ⟨e3a, e3d⟩ := @sendAux_last outs baseDelay 2 h2
    rw [e1, e2]
    constructor
    · simp [e3a]
    · simp [e3d]

/-- C9 witness: concrete traces exercising each clause of the policy,
including a 2xx that arrives only after a timed-out first attempt. -/
theorem claim9_forwarder_policy_witness :
    send_to_jira none (fun _ => .resp 200) 3 1 = ⟨0, [], .skippedNoUrl⟩
    ∧ (send_to_jira (some "u") (fun _ => .timedOut) 3 1).attempts ≤ 3
    ∧ send_to_jira (some "u") (fun j => if j < 1 then .timedOut else .resp 200) 3 1 =
        ⟨1 + 1, (List.range 1).map (fun j => 1 * 2 ^ j), .delivered 200⟩
    ∧ send_to_jira (some "u") (fun j => if j < 1 then .resp 503 else .resp 404) 3 1 =
        ⟨1 + 1, (List.range 1).map (fun j => 1 * 2 ^ j), .abandonedClient 404⟩
    ∧ (send_to_jira (some "u") (fun _ => .connFailed) 3 1).attempts = 3 :=
  ⟨claim9_forwarder_policy.1 (fun _ => .resp 200) 3 1,
   claim9_forwarder_policy.2.1 "u" (fun _ => .timedOut) 1,
   claim9_forwarder_policy.2.2.1 "u" (fun j => if j < 1 then .timedOut else .resp 200)
     1 1 200 (by norm_num) (by decide) (by decide) (by norm_num) (by norm_num),
   claim9_forwarder_policy.2.2.2.1 "u" (fun j => if j < 1 then .resp 503 else .resp 404)
     1 1 404 (by norm_num) (by decide) (by decide) (by norm_num) (by norm_num),
   (claim9_forwarder_policy.2.2.2.2 "u" (fun _ => .connFailed) 1 (by decide)).1⟩

/-- C10: for a live token and a score in 1..4, a comment of only
whitespace characters is rejected with the comment-required error exactly
like an empty one — the token is not consumed and the file is untouched —
while a comment containing any non-whitespace character is accepted. -/
theorem claim10_whitespace_comment (mem : Dict) (file : FileState) (token : String)
    (score : Int) (comment : List Char) (r : SurveyRecord)
    (hr : (reloadToken mem file token).1 = some r)
    (hlo : 1 ≤ score) (hhi : score ≤ 4) :
    (comment.all isSpaceCh = true →
        (submit_survey mem file token score comment true).1 = .commentRequired
        ∧ lookupD token (submit_survey mem file token score comment true).2.1 = some r
        ∧ (submit_survey mem file token score comment true).2.2 = file)
    ∧ ((∃ c ∈ comment, isSpaceCh c = false) →
        (submit_survey mem file token score comment true).1 = .ok r.issue_key) := by
  have hsc : ¬ ¬ (score = 1 ∨ score = 2 ∨ score = 3 ∨ score = 4 ∨ score = 5) := by omega
  constructor
  · intro hws
    have hstrip : pyStrip comment = [] := (pyStrip_eq_nil_iff comment).mpr hws
    rw [submit_survey_found score comment true hr, if_neg hsc, if_pos ⟨hhi, hstrip⟩]
    exact ⟨rfl, lookupD_reloadToken_some hr, rfl⟩
  · intro hnw
    have hstrip : pyStrip comment ≠ [] := by
      intro h0
      have hall := (pyStrip_eq_nil_iff comment).mp h0
      rw [List.all_eq_true] at hall
      rcases hnw with ⟨c, hc, hcf⟩
      rw [hall c hc] at hcf
      exact Bool.noConfusion hcf
    have hcm : ¬ (score ≤ 4 ∧ pyStrip comment = []) := fun h => hstrip h.2
    rw [submit_survey_found score comment true hr, if_neg hsc, if_neg hcm, if_pos rfl]

/-- C10 witness: score 2 with a comment of space, tab, and no-break space
is rejected and the token kept; score 2 with a real comment consumes the
token. -/
theorem claim10_whitespace_comment_witness :
    ((submit_survey [("t", recSample)] .missing "t" 2 [' ', '\t', '\xa0'] true).1
        = .commentRequired
      ∧ lookupD "t"
          (submit_survey [("t", recSample)] .missing "t" 2 [' ', '\t', '\xa0'] true).2.1
          = some recSample
      ∧ (submit_survey [("t", recSample)] .missing "t" 2 [' ', '\t', '\xa0'] true).2.2
          = .missing)
    ∧ (submit_survey [("t", recSample)] .missing "t" 2 ['h', 'i'] true).1 = .ok "PROJ-1" :=
  ⟨(claim10_whitespace_comment [("t", recSample)] .missing "t" 2 [' ', '\t', '\xa0']
      recSample (by decide) (by decide) (by decide)).1 (by decide),
   (claim10_whitespace_comment [("t", recSample)] .missing "t" 2 ['h', 'i'] recSample
      (by decide) (by decide) (by decide)).2 ⟨'h', by decide, by decide⟩⟩

end CSAT
